import Mathlib

/-!
Verification development for the CueSynch CSV-to-BWF/WAV converter.

The JavaScript/TypeScript sources (src/main.js, src/wav-generator.js and the
web port in src/unnamed/part_004) are shallowly embedded here:

* JS strings are `List Char`; byte buffers are `List Nat` (each entry < 256).
* JS numbers are modelled as exact rationals (`ℚ`).  Every numeric value the
  claims exercise (decimal timecodes at 0.5-second granularity, integer frame
  counts, `n/frameRate` with small integers, products with 44100) is exactly
  representable in float64, so float64 and `ℚ` agree on them.  Float64
  rounding of long decimal literals, overflow to `Infinity`, and the
  `Infinity` literal accepted by `parseFloat` have no rational counterpart
  and are outside this embedding (no claim exercises them).
* `Buffer.alloc n` is `List.replicate n 0`; `Buffer.write`/`writeUInt*` are
  in-place overwrites modelled by `writeBytes` below, which (like Buffer)
  never changes the buffer's length.
* Functions that can `throw`/return `null` are embedded with
  `Except`/`Option`.
-/

/-- Whitespace recognised by JS `String.prototype.trim` (the members of the
ECMA WhiteSpace/LineTerminator sets that can appear in the inputs modelled
here: space, tab, LF, VT, FF, CR, NBSP). -/
def isJsWs (c : Char) : Bool :=
  c = ' ' || c = '\t' || c = '\n' || c = '\x0b' || c = '\x0c' || c = '\r' || c = ' '

/-- Embedding of JS `String.prototype.trim`. -/
def jsTrim (s : List Char) : List Char :=
  ((s.dropWhile isJsWs).reverse.dropWhile isJsWs).reverse

/-- Embedding of JS `String.prototype.split(sep)` for a one-character
separator: `"".split(sep)` is `[""]`, i.e. the result is never empty. -/
def splitOnChar (sep : Char) : List Char → List (List Char)
  | [] => [[]]
  | c :: rest =>
    match splitOnChar sep rest with
    | [] => [[c]]
    | f :: fs => if c = sep then [] :: f :: fs else (c :: f) :: fs

/-- The result of `splitOnChar` is never the empty list (mirrors the JS fact
that `String.prototype.split` always returns at least one element). -/
theorem splitOnChar_ne_nil (sep : Char) (s : List Char) : splitOnChar sep s ≠ [] := by
  cases s with
  | nil => simp [splitOnChar]
  | cons c rest =>
    simp only [splitOnChar]
    rcases h : splitOnChar sep rest with _ | ⟨f, fs⟩
    · simp
    · simp only []
      split <;> simp_all

/-- Test whether `pat` occurs at the start of `s`. -/
def startsList : List Char → List Char → Bool
  | _, [] => true
  | [], _ :: _ => false
  | a :: as, b :: bs => a = b && startsList as bs

/-- Embedding of JS `String.prototype.includes` (substring containment). -/
def containsSeq : List Char → List Char → Bool
  | [], pat => pat.isEmpty
  | s@(_ :: rest), pat => startsList s pat || containsSeq rest pat

/-- Embedding of JS `String.prototype.toLowerCase` (ASCII range; the inputs
scanned for the header keywords `"time"`/`"name"` are ASCII). -/
def jsToLower (s : List Char) : List Char := s.map Char.toLower

/-- UTF-8 encoding of a single character (RFC 3629). -/
def utf8Char (c : Char) : List Nat :=
  let n := c.toNat
  if n < 0x80 then [n]
  else if n < 0x800 then [0xc0 + n / 64, 0x80 + n % 64]
  else if n < 0x10000 then [0xe0 + n / 4096, 0x80 + n / 64 % 64, 0x80 + n % 64]
  else [0xf0 + n / 262144, 0x80 + n / 4096 % 64, 0x80 + n / 64 % 64, 0x80 + n % 64]

/-- UTF-8 bytes of a string, as produced by `Buffer.write(s)` /
`Buffer.byteLength(s, 'utf8')`. -/
def utf8Bytes (s : List Char) : List Nat := (s.map utf8Char).flatten

/-- Number of UTF-16 code units of a string: this is what the JS `.length`
property of a string counts (characters above U+FFFF take two units). -/
def utf16Length (s : List Char) : Nat :=
  (s.map fun c => if c.toNat < 0x10000 then 1 else 2).sum

/-- Byte sequence of an ASCII chunk tag such as `"RIFF"` or `"labl"`. -/
def asciiBytes (s : String) : List Nat := utf8Bytes s.data

/-- Little-endian 4-byte encoding used by `Buffer.writeUInt32LE`.  For
`v < 2^32` this matches JS exactly; JS throws a `RangeError` beyond that,
which the claims avoid via explicit bounds. -/
def u32le (v : Nat) : List Nat :=
  [v % 256, v / 256 % 256, v / 65536 % 256, v / 16777216 % 256]

/-- Little-endian 2-byte encoding used by `Buffer.writeUInt16LE`. -/
def u16le (v : Nat) : List Nat := [v % 256, v / 256 % 256]

/-- Decode the little-endian 32-bit integer stored at byte offset `off`
(reading absent positions as 0, which never happens at the offsets used). -/
def readU32LE (bytes : List Nat) (off : Nat) : Nat :=
  bytes.getD off 0 + 256 * bytes.getD (off + 1) 0 +
    65536 * bytes.getD (off + 2) 0 + 16777216 * bytes.getD (off + 3) 0

/-- Overwrite `buf` starting at `off` with the bytes of `src`, truncating at
the end of `buf`; the buffer's length never changes.  This is the semantics
of `Buffer.prototype.write`/`copy`/`writeUInt8` into a preallocated buffer. -/
def writeBytes (buf : List Nat) (off : Nat) (src : List Nat) : List Nat :=
  let w := min src.length (buf.length - off)
  buf.take off ++ src.take w ++ buf.drop (off + w)

theorem length_writeBytes (buf : List Nat) (off : Nat) (src : List Nat) :
    (writeBytes buf off src).length = buf.length := by
  simp only [writeBytes, List.length_append, List.length_take, List.length_drop]
  omega

/-- Embedding of `buf.writeUInt32LE(v, off)`. -/
def writeU32LE (buf : List Nat) (off : Nat) (v : Nat) : List Nat :=
  writeBytes buf off (u32le v)

/-- Embedding of `buf.writeUInt16LE(v, off)`. -/
def writeU16LE (buf : List Nat) (off : Nat) (v : Nat) : List Nat :=
  writeBytes buf off (u16le v)

/-- Numeric value of a string of decimal digits (most significant first). -/
def digitsToNat (ds : List Char) : Nat :=
  ds.foldl (fun a c => a * 10 + (c.toNat - 48)) 0

/-- Hexadecimal digit test for `parseInt`'s `0x` form. -/
def isHexDigit (c : Char) : Bool :=
  c.isDigit || ('a' ≤ c && c ≤ 'f') || ('A' ≤ c && c ≤ 'F')

/-- Value of one hexadecimal digit. -/
def hexDigitVal (c : Char) : Nat :=
  if c.isDigit then c.toNat - 48
  else if 'a' ≤ c && c ≤ 'f' then c.toNat - 87
  else c.toNat - 55

/-- Numeric value of a string of hexadecimal digits. -/
def hexDigitsToNat (ds : List Char) : Nat :=
  ds.foldl (fun a c => a * 16 + hexDigitVal c) 0

/-- Embedding of JS `parseInt(s)` (no radix argument): skip leading
whitespace, optional sign, then either a `0x`/`0X` hexadecimal literal or a
run of decimal digits; the longest such run is the value and trailing
garbage is ignored.  `none` models the `NaN` result. -/
def jsParseInt (s : List Char) : Option Int :=
  let s1 := s.dropWhile isJsWs
  let sgn : Int := if s1.head? = some '-' then -1 else 1
  let s2 := if s1.head? = some '-' || s1.head? = some '+' then s1.tail else s1
  match s2 with
  | '0' :: x :: rest =>
    if x = 'x' || x = 'X' then
      let hs := rest.takeWhile isHexDigit
      if hs.isEmpty then none else some (sgn * hexDigitsToNat hs)
    else
      some (sgn * digitsToNat (s2.takeWhile Char.isDigit))
  | _ =>
    let ds := s2.takeWhile Char.isDigit
    if ds.isEmpty then none else some (sgn * digitsToNat ds)

/-- Value contributed by a run of digits read after the decimal point. -/
def fracVal (ds : List Char) : ℚ := (digitsToNat ds : ℚ) / 10 ^ ds.length

/-- Optional exponent part of a JS decimal literal (`e`/`E`, optional sign,
at least one digit); `none` when no well-formed exponent follows, in which
case `parseFloat`'s longest-valid-literal rule ignores the tail. -/
def expPart (s : List Char) : Option Int :=
  match s with
  | c :: rest =>
    if c = 'e' || c = 'E' then
      let sgn : Int := if rest.head? = some '-' then -1 else 1
      let r2 := if rest.head? = some '-' || rest.head? = some '+' then rest.tail else rest
      let ds := r2.takeWhile Char.isDigit
      if ds.isEmpty then none else some (sgn * digitsToNat ds)
    else none
  | [] => none

/-- Longest unsigned decimal mantissa (`digits [. digits]` or `. digits`) at
the head of `s`, with the unconsumed remainder; `none` when `s` does not
start with one (the `NaN` case). -/
def unsignedDec (s : List Char) : Option (ℚ × List Char) :=
  let ip := s.takeWhile Char.isDigit
  let rest := s.dropWhile Char.isDigit
  match rest with
  | '.' :: r2 =>
    let fp := r2.takeWhile Char.isDigit
    if ip.isEmpty && fp.isEmpty then none
    else some ((digitsToNat ip : ℚ) + fracVal fp, r2.dropWhile Char.isDigit)
  | _ => if ip.isEmpty then none else some ((digitsToNat ip : ℚ), rest)

/-- Embedding of JS `parseFloat(s)`: skip leading whitespace, optional sign,
then the longest decimal literal; trailing garbage is ignored and `none`
models `NaN`.  The `Infinity` literal of the JS grammar and float64
rounding/overflow are outside this rational-valued model (see the header;
no claim exercises them). -/
def jsParseFloat (s : List Char) : Option ℚ :=
  let s1 := s.dropWhile isJsWs
  let sgn : ℚ := if s1.head? = some '-' then -1 else 1
  let s2 := if s1.head? = some '-' || s1.head? = some '+' then s1.tail else s1
  match unsignedDec s2 with
  | none => none
  | some (m, rest) => some (sgn * m * 10 ^ ((expPart rest).getD 0))

/-- Accumulator loop of `parseCSVLine` (src/main.js:359-379 and its copy in
src/unnamed/part_004): `acc` is the current field, reversed; a `"` only
toggles `inQuotes` and is never appended to the field; a `,` outside quotes
ends the field; every finished field is trimmed. -/
def parseCSVLineGo : List Char → List Char → Bool → List (List Char)
  | [], acc, _ => [jsTrim acc.reverse]
  | c :: rest, acc, inQuotes =>
    if c = '"' then parseCSVLineGo rest acc (!inQuotes)
    else if c = ',' ∧ inQuotes = false then
      jsTrim acc.reverse :: parseCSVLineGo rest [] inQuotes
    else parseCSVLineGo rest (c :: acc) inQuotes

/-- Embedding of `parseCSVLine(line)`. -/
def parseCSVLine (line : List Char) : List (List Char) := parseCSVLineGo line [] false

/-- A CSV row: the JS object mapping header names to cell values, embedded
as an association list in assignment order (`row[header] = values[index]`).
Later assignments shadow earlier ones, so lookup takes the last binding. -/
abbrev Row := List (List Char × List Char)

/-- Embedding of the row-building loop body: `row[header] = values[index] || ''`
(a missing or empty cell both give the empty string). -/
def buildRow (headers : List (List Char)) (vals : List (List Char)) : Row :=
  headers.enum.map fun p => (p.2, vals.getD p.1 [])

/-- Lookup `row[k]`: the value of the last assignment to key `k`, `none` when
the key is absent (the JS `undefined`). -/
def rowGet (row : Row) (k : List Char) : Option (List Char) :=
  (row.reverse.find? fun p => p.1 == k).map Prod.snd

/-- Lines of the CSV: `csvContent.trim().split('\n')` (never empty). -/
def csvLines (csv : List Char) : List (List Char) := splitOnChar '\n' (jsTrim csv)

/-- Data-row loop of `parseCSVWithHeaders` (src/main.js:284-296): skip blank
lines (after trimming), parse the rest, keep rows with at least one field
(`parseCSVLine` always returns one, but the source's guard is kept). -/
def buildRows (headers : List (List Char)) (lines : List (List Char)) : List Row :=
  lines.filterMap fun l =>
    let line := jsTrim l
    if line.isEmpty then none
    else
      let vals := parseCSVLine line
      if vals.isEmpty then none else some (buildRow headers vals)

/-- Embedding of `parseCSVWithHeaders` (src/main.js:273-299, identical copy
in src/unnamed/part_004:48-74).  The `throw new Error('CSV file is empty')`
branch is kept verbatim even though `csvLines` never returns `[]`. -/
def parseCSVWithHeaders (csv : List Char) :
    Except (List Char) (List (List Char) × List Row) :=
  match csvLines csv with
  | [] => Except.error ("CSV file is empty".data)
  | l0 :: rest =>
    let headers := parseCSVLine l0
    Except.ok (headers, buildRows headers rest)

/-- Header row of a CSV (the always-taken branch of `parseCSVWithHeaders`). -/
def csvHeadersOf (csv : List Char) : List (List Char) :=
  parseCSVLine ((csvLines csv).headD [])

/-- Data rows of a CSV (the always-taken branch of `parseCSVWithHeaders`). -/
def csvRowsOf (csv : List Char) : List Row :=
  buildRows (csvHeadersOf csv) (csvLines csv).tail

theorem parseCSVWithHeaders_eq_ok (csv : List Char) :
    parseCSVWithHeaders csv = Except.ok (csvHeadersOf csv, csvRowsOf csv) := by
  unfold parseCSVWithHeaders csvHeadersOf csvRowsOf
  rcases h : csvLines csv with _ | ⟨l0, rest⟩
  · exact absurd h (splitOnChar_ne_nil '\n' (jsTrim csv))
  · simp [csvHeadersOf, h]

/-- Embedding of `parseTime(timeStr, frameRate)` (src/main.js:381-425,
identical copy in src/unnamed/part_004:80-124).  `none` models the `null`
returned for unparsable input; the function never throws.  In the four-part
form a zero `frameRate` would give `NaN`/`Infinity` in JS where rational
division gives `f / 0 = 0`; every claim supplies a positive frame rate. -/
def parseTime (timeStr : List Char) (frameRate : ℚ) : Option ℚ :=
  let t := jsTrim timeStr
  if t.contains ':' = false then jsParseFloat t
  else
    match splitOnChar ':' t with
    | [a, b] =>
      match jsParseInt a, jsParseFloat b with
      | some m, some s => some ((m : ℚ) * 60 + s)
      | _, _ => none
    | [a, b, c] =>
      match jsParseInt a, jsParseInt b, jsParseFloat c with
      | some h, some m, some s => some ((h : ℚ) * 3600 + (m : ℚ) * 60 + s)
      | _, _, _ => none
    | [a, b, c, d] =>
      match jsParseInt a, jsParseInt b, jsParseInt c, jsParseInt d with
      | some h, some m, some s, some f =>
        some ((h : ℚ) * 3600 + (m : ℚ) * 60 + (s : ℚ) + (f : ℚ) / frameRate)
      | _, _, _, _ => none
    | _ => none

/-- Frame numbers collected by `detectFrameRate` (src/main.js:227-249): skip
the first line when it case-insensitively contains "time" or "name", then
for every non-blank line whose first field splits on `:` into exactly four
parts, `parseInt` the fourth part and keep it when not `NaN`. -/
def collectedFrames (csv : List Char) : List Int :=
  let lines := csvLines csv
  let first := jsToLower (lines.headD [])
  let start : Nat :=
    if containsSeq first "time".data || containsSeq first "name".data then 1 else 0
  (lines.drop start).filterMap fun l =>
    let line := jsTrim l
    if line.isEmpty then none
    else
      let values := parseCSVLine line
      if 1 ≤ values.length then
        let timeParts := splitOnChar ':' (jsTrim (values.headD []))
        if timeParts.length = 4 then jsParseInt (timeParts.getD 3 []) else none
      else none

/-- Bucketing of the maximum observed frame number (src/main.js:259-269). -/
def frameRateBucket (maxFrame : Int) : Nat :=
  if maxFrame < 24 then 24
  else if maxFrame < 25 then 25
  else if maxFrame < 30 then 30
  else if maxFrame < 50 then 50
  else 60

/-- Embedding of `detectFrameRate(csvContent)` (src/main.js:227-270,
identical copy in src/unnamed/part_004:129-172): 30 when no frame numbers
were collected, else the bucket of their maximum. -/
def detectFrameRate (csv : List Char) : Nat :=
  match collectedFrames csv with
  | [] => 30
  | f :: fs => frameRateBucket (fs.foldl max f)

/-- A marker as built by the extractor and consumed by the encoder:
`{ time: number, name: string }` in the source. -/
structure Marker where
  time : ℚ
  name : List Char
deriving DecidableEq

/-- Body of the marker-extraction loop (src/main.js:314-339, web copy in
src/unnamed/part_004:186-201): skip the row when the time cell is absent or
empty (`if (!timeStr) continue`) or `parseTime` fails; the label is the
selected fields' non-blank values joined with `" - "`, defaulting to
`"Marker"`. -/
def extractRow (frameRate : ℚ) (timeColumn : List Char) (fields : List (List Char))
    (row : Row) : Option Marker :=
  match rowGet row timeColumn with
  | none => none
  | some ts =>
    if ts.isEmpty then none
    else
      match parseTime ts frameRate with
      | none => none
      | some time =>
        let nameParts := (fields.filterMap (rowGet row)).filter
          fun v => !v.isEmpty && !(jsTrim v).isEmpty
        let name :=
          if nameParts.isEmpty then "Marker".data
          else List.intercalate " - ".data nameParts
        some ⟨time, name⟩

/-- Markers in original row order, before the final sort. -/
def extractMarkersRaw (frameRate : ℚ) (timeColumn : List Char)
    (fields : List (List Char)) (rows : List Row) : List Marker :=
  rows.filterMap (extractRow frameRate timeColumn fields)

/-- Comparator order of `markers.sort((a, b) => a.time - b.time)`. -/
def markerTimeLE (a b : Marker) : Prop := a.time ≤ b.time

instance : DecidableRel markerTimeLE :=
  fun a b => inferInstanceAs (Decidable (a.time ≤ b.time))

instance : IsTotal Marker markerTimeLE := ⟨fun a b => le_total a.time b.time⟩

instance : IsTrans Marker markerTimeLE := ⟨fun _ _ _ h1 h2 => le_trans h1 h2⟩

/-- Embedding of `markers.sort((a, b) => a.time - b.time)`.  ES2019 requires
`Array.prototype.sort` to be stable, and any stable sort for the total
preorder induced by this comparator produces the same list, so insertion
sort is a faithful model of it. -/
def sortMarkers (ms : List Marker) : List Marker := List.insertionSort markerTimeLE ms

/-- Embedding of `parseCSVWithSelectedFields` (src/main.js:302-357, web copy
in src/unnamed/part_004:177-207): extract markers row by row, then sort by
time.  The desktop variant additionally derives a `startTimecode` string
used only for AppleScript automation, which is outside the conversion core
and not modelled. -/
def parseCSVWithSelectedFields (csv : List Char) (frameRate : ℚ)
    (timeColumn : List Char) (fields : List (List Char)) :
    Except (List Char) (List Marker) :=
  match parseCSVWithHeaders csv with
  | Except.error e => Except.error e
  | Except.ok (_, rows) =>
    Except.ok (sortMarkers (extractMarkersRaw frameRate timeColumn fields rows))

/-- Duration in seconds of the generated file (src/wav-generator.js:17, web
copy src/unnamed/part_004:244): `Math.ceil` of the last marker's time plus
one, or 10 when there are no markers. -/
def durationSecondsZ (ms : List Marker) : Int :=
  match ms with
  | [] => 10
  | m :: rest => ⌈((m :: rest).getLast (List.cons_ne_nil m rest)).time⌉ + 1

/-- Total sample count `duration * sampleRate` (src/wav-generator.js:18). -/
def numSamplesZ (ms : List Marker) : Int := durationSecondsZ ms * 44100

/-- Cue sample position `Math.floor(marker.time * sampleRate)`
(src/wav-generator.js:153).  JS `writeUInt32LE` would throw for a negative
position; `Int.toNat` clamps instead, and the claims only use markers with
nonnegative time. -/
def samplePosAt (sampleRate : ℚ) (m : Marker) : Nat := (⌊m.time * sampleRate⌋).toNat

/-- Cue sample position at the encoder's fixed 44100 Hz rate. -/
def samplePos (m : Marker) : Nat := samplePosAt 44100 m

/-- Embedding of `createFmtChunk` (src/wav-generator.js:69-82).  The source
writes the six fields at offsets 0, 2, 4, 8, 12, 14 of a 16-byte buffer;
the writes tile the buffer exactly, so the chunk is their concatenation. -/
def createFmtChunk (sampleRate numChannels bitsPerSample : Nat) : List Nat :=
  let blockAlign := numChannels * (bitsPerSample / 8)
  let byteRate := sampleRate * blockAlign
  u16le 1 ++ u16le numChannels ++ u32le sampleRate ++ u32le byteRate ++
    u16le blockAlign ++ u16le bitsPerSample

/-- Embedding of `createBextChunk` (src/wav-generator.js:84-137, web copy
src/unnamed/part_004:303-339): a 602-byte zero buffer with the string
fields written at their fixed offsets (capped at each field's width) and
`TimeReference = 0`, version 2.  The description/originator differ between
the desktop and web variants and the reference/date/time strings come from
the clock, so all five are parameters here. -/
def createBextChunk (descr originator origRef odate otime : List Char) : List Nat :=
  let b0 := List.replicate 602 0
  let b1 := writeBytes b0 0 ((utf8Bytes descr).take 256)
  let b2 := writeBytes b1 256 ((utf8Bytes originator).take 32)
  let b3 := writeBytes b2 288 ((utf8Bytes origRef).take 32)
  let b4 := writeBytes b3 320 ((utf8Bytes odate).take 10)
  let b5 := writeBytes b4 330 ((utf8Bytes otime).take 8)
  let b6 := writeU32LE b5 338 0
  let b7 := writeU32LE b6 342 0
  writeU16LE b7 346 2

/-- One 24-byte cue record (src/wav-generator.js:157-162): cue ID, sample
position, the ASCII tag `"data"`, chunk start 0, block start 0, and the
sample position again.  The six writes at offsets 0, 4, 8, 12, 16, 20 tile
the 24 bytes exactly, so the record is their concatenation. -/
def cueRecord (id pos : Nat) : List Nat :=
  u32le id ++ u32le pos ++ asciiBytes "data" ++ u32le 0 ++ u32le 0 ++ u32le pos

/-- Concatenation of the cue records for `ms`, with IDs counting up from
`id` (the source's `index + 1` with the loop writing each record at offset
`4 + 24 * index`). -/
def cueRecords (sampleRate : ℚ) : Nat → List Marker → List Nat
  | _, [] => []
  | id, m :: rest => cueRecord id (samplePosAt sampleRate m) ++ cueRecords sampleRate (id + 1) rest

/-- Embedding of `createCueChunk(markers, sampleRate)`
(src/wav-generator.js:139-174): the 4-byte cue count followed by one
24-byte record per marker. -/
def createCueChunk (ms : List Marker) (sampleRate : ℚ) : List Nat :=
  u32le ms.length ++ cueRecords sampleRate 1 ms

/-- One `labl` sub-chunk as built by the DESKTOP `createListChunk`
(src/wav-generator.js:208-219): note the final `writeUInt8(0, 12 +
label.length)`, where `label.length` counts UTF-16 code units, not UTF-8
bytes — for a non-ASCII label the null byte lands inside the label's UTF-8
bytes. -/
def lablSubChunkDesktop (idx : Nat) (label : List Char) : List Nat :=
  let lbl := utf8Bytes label
  let labelLength := lbl.length + 1
  let paddedLength := labelLength + labelLength % 2
  let b0 := List.replicate (8 + 4 + paddedLength) 0
  let b1 := writeBytes b0 0 (asciiBytes "labl")
  let b2 := writeU32LE b1 4 (4 + paddedLength)
  let b3 := writeU32LE b2 8 (idx + 1)
  let b4 := writeBytes b3 12 lbl
  writeBytes b4 (12 + utf16Length label) [0]

/-- One `labl` sub-chunk as built by the WEB `createListChunk`
(src/unnamed/part_004:370-382): identical except the null terminator is
written at `12 + labelByteLength` (UTF-8 bytes). -/
def lablSubChunkWeb (idx : Nat) (label : List Char) : List Nat :=
  let lbl := utf8Bytes label
  let labelLength := lbl.length + 1
  let paddedLength := labelLength + labelLength % 2
  let b0 := List.replicate (8 + 4 + paddedLength) 0
  let b1 := writeBytes b0 0 (asciiBytes "labl")
  let b2 := writeU32LE b1 4 (4 + paddedLength)
  let b3 := writeU32LE b2 8 (idx + 1)
  let b4 := writeBytes b3 12 lbl
  writeBytes b4 (12 + lbl.length) [0]

/-- Desktop `labl` sub-chunks concatenated in order (`Buffer.concat`),
0-based `idx` as in the source's `forEach`. -/
def lablSubChunksDesktop : Nat → List Marker → List Nat
  | _, [] => []
  | idx, m :: rest => lablSubChunkDesktop idx m.name ++ lablSubChunksDesktop (idx + 1) rest

/-- Web `labl` sub-chunks concatenated in order. -/
def lablSubChunksWeb : Nat → List Marker → List Nat
  | _, [] => []
  | idx, m :: rest => lablSubChunkWeb idx m.name ++ lablSubChunksWeb (idx + 1) rest

/-- Embedding of the desktop `createListChunk(markers)`
(src/wav-generator.js:204-230): the `"adtl"` tag followed by the
concatenated sub-chunks (the source copies them at offset 4 of an exactly
sized buffer). -/
def createListChunkDesktop (ms : List Marker) : List Nat :=
  asciiBytes "adtl" ++ lablSubChunksDesktop 0 ms

/-- Embedding of the web `createListChunk(markers)`
(src/unnamed/part_004:366-392). -/
def createListChunkWeb (ms : List Marker) : List Nat :=
  asciiBytes "adtl" ++ lablSubChunksWeb 0 ms

/-- Embedding of `createDataChunk(numSamples, numChannels, bytesPerSample)`
(src/wav-generator.js:232-236): all-zero (silent) PCM bytes. -/
def createDataChunk (numSamples : Int) (numChannels bytesPerSample : Nat) : List Nat :=
  List.replicate ((numSamples * numChannels * bytesPerSample).toNat) 0

/-- Embedding of `createChunkHeader(id, size)` (src/wav-generator.js:62-67). -/
def chunkHeader (id : String) (size : Nat) : List Nat := asciiBytes id ++ u32le size

/-- The 12-byte RIFF header (src/wav-generator.js:41-44): `"RIFF"`, the
declared size, `"WAVE"`; the three writes tile the buffer exactly. -/
def riffHeader (fileSize : Nat) : List Nat :=
  asciiBytes "RIFF" ++ u32le fileSize ++ asciiBytes "WAVE"

/-- Final buffer assembly shared verbatim by both `generateWavWithMarkers`
variants (src/wav-generator.js:32-58, src/unnamed/part_004:254-278): compute
`fileSize = 4 + Σ (8 + chunk.length)` over the five chunks and concatenate
the RIFF header and the headered chunks in the fixed on-disk order fmt,
bext, data, cue, LIST. -/
def assembleWav (fmtC bextC dataC cueC listC : List Nat) : List Nat :=
  riffHeader (4 + (8 + fmtC.length) + (8 + bextC.length) + (8 + dataC.length) +
      (8 + cueC.length) + (8 + listC.length)) ++
    chunkHeader "fmt " fmtC.length ++ fmtC ++
    chunkHeader "bext" bextC.length ++ bextC ++
    chunkHeader "data" dataC.length ++ dataC ++
    chunkHeader "cue " cueC.length ++ cueC ++
    chunkHeader "LIST" listC.length ++ listC

/-- Embedding of the desktop `generateWavWithMarkers` buffer construction
(src/wav-generator.js:8-60, minus the `fs.writeFileSync`). -/
def generateWavDesktop (ms : List Marker) (origRef odate otime : List Char) : List Nat :=
  assembleWav (createFmtChunk 44100 2 16)
    (createBextChunk "CueSynch - Generated marker file".data "CueSynch".data origRef odate otime)
    (createDataChunk (numSamplesZ ms) 2 2)
    (createCueChunk ms 44100)
    (createListChunkDesktop ms)

/-- Embedding of the web `generateWavWithMarkers`
(src/unnamed/part_004:236-279); it differs from the desktop variant only in
the bext description/originator strings and the fixed `labl` terminator. -/
def generateWavWeb (ms : List Marker) (origRef odate otime : List Char) : List Nat :=
  assembleWav (createFmtChunk 44100 2 16)
    (createBextChunk "CueSynch Web - Generated marker file".data "CueSynch Web".data
      origRef odate otime)
    (createDataChunk (numSamplesZ ms) 2 2)
    (createCueChunk ms 44100)
    (createListChunkWeb ms)

/-- Conversion core of the desktop `ipcMain.handle('generate-wav')`
(src/main.js:72-224): parse and extract markers, then encode.  File
reading, the save dialog, filename derivation and the AppleScript
automation are orchestration around this core; the clock-derived bext
strings are parameters.  Note there is NO check for an empty marker list:
the handler proceeds to encode whatever `parseCSVWithSelectedFields`
returns. -/
def desktopGenerateWav (csv : List Char) (frameRate : ℚ) (timeColumn : List Char)
    (fields : List (List Char)) (origRef odate otime : List Char) :
    Except (List Char) (List Nat) :=
  match parseCSVWithSelectedFields csv frameRate timeColumn fields with
  | Except.error e => Except.error e
  | Except.ok ms => Except.ok (generateWavDesktop ms origRef odate otime)

/-- Conversion core of the web `POST /api/generate-wav` handler
(src/web/app/api/generate-wav/route.ts:5-67): like the desktop core but
rejecting an empty marker list with `'No valid markers found in CSV'`
(route.ts:33-38). -/
def webGenerateWav (csv : List Char) (frameRate : ℚ) (timeColumn : List Char)
    (fields : List (List Char)) (origRef odate otime : List Char) :
    Except (List Char) (List Nat) :=
  match parseCSVWithSelectedFields csv frameRate timeColumn fields with
  | Except.error e => Except.error e
  | Except.ok ms =>
    if ms.isEmpty then Except.error "No valid markers found in CSV".data
    else Except.ok (generateWavWeb ms origRef odate otime)

/-! Helper lemmas shared by the claim theorems. -/

theorem not_mem_jsTrim {c : Char} {l : List Char} (h : c ∉ l) : c ∉ jsTrim l := by
  intro hc
  apply h
  unfold jsTrim at hc
  rw [List.mem_reverse] at hc
  have hc2 := (List.dropWhile_sublist _).mem hc
  rw [List.mem_reverse] at hc2
  exact (List.dropWhile_sublist _).mem hc2

theorem quote_not_mem_parseCSVLineGo :
    ∀ (s acc : List Char) (q : Bool), '"' ∉ acc →
      ∀ f ∈ parseCSVLineGo s acc q, '"' ∉ f := by
  intro s
  induction s with
  | nil =>
    intro acc q hacc f hf
    simp only [parseCSVLineGo, List.mem_singleton] at hf
    subst hf
    exact not_mem_jsTrim (by simpa using hacc)
  | cons c rest ih =>
    intro acc q hacc f hf
    simp only [parseCSVLineGo] at hf
    by_cases h1 : c = '"'
    · rw [if_pos h1] at hf
      exact ih acc (!q) hacc f hf
    · rw [if_neg h1] at hf
      by_cases h2 : c = ',' ∧ q = false
      · rw [if_pos h2] at hf
        rcases List.mem_cons.mp hf with rfl | hf2
        · exact not_mem_jsTrim (by simpa using hacc)
        · exact ih [] q (by simp) f hf2
      · rw [if_neg h2] at hf
        refine ih (c :: acc) q ?_ f hf
        simp only [List.mem_cons, not_or]
        exact ⟨fun e => h1 e.symm, hacc⟩

theorem splitOnChar_of_not_contains {sep : Char} :
    ∀ {s : List Char}, s.contains sep = false → splitOnChar sep s = [s] := by
  intro s
  induction s with
  | nil => intro _; rfl
  | cons c rest ih =>
    intro h
    simp only [List.contains_cons, Bool.or_eq_false_iff, beq_eq_false_iff_ne] at h
    simp only [splitOnChar, ih (by simpa using h.2)]
    rw [if_neg (fun e => h.1 e.symm)]

theorem contains_of_splitOnChar_two {sep : Char} {s : List Char} {a b : List Char}
    {rest : List (List Char)} (h : splitOnChar sep s = a :: b :: rest) :
    s.contains sep = true := by
  by_contra hc
  rw [splitOnChar_of_not_contains (Bool.eq_false_iff.mpr hc)] at h
  simp at h

theorem filter_time_orderedInsert (t : ℚ) (x : Marker) (l : List Marker) :
    (List.orderedInsert markerTimeLE x l).filter (fun m => decide (m.time = t)) =
      if x.time = t then x :: l.filter (fun m => decide (m.time = t))
      else l.filter (fun m => decide (m.time = t)) := by
  induction l with
  | nil =>
    by_cases hx : x.time = t <;> simp [List.orderedInsert, List.filter_cons, hx]
  | cons y ys ih =>
    simp only [List.orderedInsert]
    by_cases hxy : markerTimeLE x y
    · rw [if_pos hxy]
      by_cases hx : x.time = t <;> simp [List.filter_cons, hx]
    · rw [if_neg hxy]
      have hyx : y.time < x.time := lt_of_not_le hxy
      by_cases hx : x.time = t
      · have hy : ¬ y.time = t := fun e => absurd (hx ▸ e ▸ hyx) (lt_irrefl _)
        simp [List.filter_cons, hy, ih, hx]
      · by_cases hy : y.time = t <;> simp [List.filter_cons, hy, ih, hx]

theorem filter_time_sortMarkers (t : ℚ) (l : List Marker) :
    (sortMarkers l).filter (fun m => decide (m.time = t)) =
      l.filter (fun m => decide (m.time = t)) := by
  induction l with
  | nil => rfl
  | cons x xs ih =>
    show (List.orderedInsert markerTimeLE x (List.insertionSort markerTimeLE xs)).filter _ = _
    rw [filter_time_orderedInsert]
    have e : List.insertionSort markerTimeLE xs = sortMarkers xs := rfl
    by_cases hx : x.time = t <;> simp [List.filter_cons, hx, e, ih]

theorem sortMarkers_sorted (l : List Marker) :
    (sortMarkers l).Pairwise fun a b => a.time ≤ b.time :=
  List.sorted_insertionSort markerTimeLE l

theorem cueRecord_length (id pos : Nat) : (cueRecord id pos).length = 24 := rfl

theorem cueRecords_slice (sampleRate : ℚ) :
    ∀ (ms : List Marker) (id i : Nat), i < ms.length →
      ((cueRecords sampleRate id ms).drop (24 * i)).take 24 =
        cueRecord (id + i) (samplePosAt sampleRate (ms.getD i ⟨0, []⟩)) := by
  intro ms
  induction ms with
  | nil => intro id i hi; simp at hi
  | cons m rest ih =>
    intro id i hi
    cases i with
    | zero =>
      simp only [cueRecords, Nat.mul_zero, List.drop_zero, Nat.add_zero, List.getD_cons_zero]
      have := List.take_left (cueRecord id (samplePosAt sampleRate m))
        (cueRecords sampleRate (id + 1) rest)
      rwa [cueRecord_length] at this
    | succ j =>
      have e : 24 * (j + 1) = (cueRecord id (samplePosAt sampleRate m)).length + 24 * j := by
        rw [cueRecord_length]; ring
      simp only [cueRecords, e, List.drop_append]
      have := ih (id + 1) j (by simpa using hi)
      rw [this, List.getD_cons_succ]
      congr 1
      omega

theorem riffHeader_cons (fs : Nat) :
    riffHeader fs = 82 :: 73 :: 70 :: 70 :: (fs % 256) :: (fs / 256 % 256) ::
      (fs / 65536 % 256) :: (fs / 16777216 % 256) :: [87, 65, 86, 69] := rfl

theorem readU32LE_riffHeader (fs : Nat) (rest : List Nat) :
    readU32LE (riffHeader fs ++ rest) 4 = fs % 4294967296 := by
  have e : readU32LE (riffHeader fs ++ rest) 4 =
      fs % 256 + 256 * (fs / 256 % 256) + 65536 * (fs / 65536 % 256) +
        16777216 * (fs / 16777216 % 256) := rfl
  rw [e]
  omega

/-! Claim theorems. -/

/-- Label used in the spec's non-ASCII round-trip scenario. -/
def labelAAO : List Char := "Å Ä Ö".data

/-- C1: the claim states that in every `labl` sub-record the null terminator
is written immediately after the last UTF-8 byte of the label (never inside
it), so a label of only non-ASCII characters ("Å Ä Ö") round-trips
unchanged.  The DESKTOP encoder (src/wav-generator.js:219) places the null
at `12 + label.length` — UTF-16 code units — which for "Å Ä Ö" overwrites
byte 5 of the 8-byte UTF-8 sequence (the space before "Ö"), so the bytes
after the cue ID are NOT the label's UTF-8 bytes followed by a null and a
pad byte; the WEB port (src/unnamed/part_004:381) uses the UTF-8 byte
length and matches the claimed layout, confirming the desktop slip. -/
theorem cueSynch_c1_bug_eval :
    (createListChunkDesktop [⟨0, labelAAO⟩]).drop 16 ≠ utf8Bytes labelAAO ++ [0, 0]
    ∧ (createListChunkWeb [⟨0, labelAAO⟩]).drop 16 = utf8Bytes labelAAO ++ [0, 0] := by
  constructor
  · decide
  · decide

/-- C3: the claim states that an input whose trimmed text has no lines (in
particular an empty or whitespace-only string) fails with `EmptyInput`.  In
JS, `''.split('\n')` is `['']`, so the `lines.length === 0` guard in
`parseCSVWithHeaders` (src/main.js:275) can never fire: parsing an empty
string (or a whitespace-only one) SUCCEEDS with a single empty header and
no rows, and in fact the function never returns the error at all. -/
theorem cueSynch_c3_bug_eval :
    parseCSVWithHeaders [] = Except.ok ([[]], [])
    ∧ parseCSVWithHeaders "   \n  ".data = Except.ok ([[]], [])
    ∧ ∀ csv, ∃ v, parseCSVWithHeaders csv = Except.ok v := by
  refine ⟨rfl, rfl, fun csv => ⟨_, parseCSVWithHeaders_eq_ok csv⟩⟩

/-- CSV of the spec's end-to-end scenario. -/
def demoCSV : List Char := "time,name\n0,Intro\n10.5,Verse 1\n1:30,Chorus\n0:01:45:15,Bridge".data

/-- Markers of the spec's end-to-end scenario: offsets 0, 10.5, 90 and
105.5 seconds. -/
def demoMarkers : List Marker :=
  [⟨0, "Intro".data⟩, ⟨10.5, "Verse 1".data⟩, ⟨90, "Chorus".data⟩, ⟨105.5, "Bridge".data⟩]

/-- C2: for every non-empty marker list the encoder's duration in seconds is
`ceil(last offset) + 1` (10 for the empty list); every cue record of the
`cue ` chunk carries sample position `floor(offsetSeconds * 44100)` (the
24-byte record at offset `4 + 24 * i` is exactly `cueRecord (i + 1)` of that
position); and for markers at offsets [0, 10.5, 90, 105.5] the duration is
107 seconds (a data chunk of `107 * 44100 * 2 * 2` silent bytes) and the
cue sample positions are [0, 463050, 3969000, 4652550]. -/
theorem cueSynch_c2_duration_and_positions :
    (∀ (ms : List Marker) (h : ms ≠ []), durationSecondsZ ms = ⌈(ms.getLast h).time⌉ + 1)
    ∧ durationSecondsZ [] = 10
    ∧ (∀ (ms : List Marker) (i : Nat), i < ms.length →
        ((createCueChunk ms 44100).drop (4 + 24 * i)).take 24 =
          cueRecord (i + 1) (⌊(ms.getD i ⟨0, []⟩).time * 44100⌋.toNat))
    ∧ durationSecondsZ demoMarkers = 107
    ∧ (createDataChunk (numSamplesZ demoMarkers) 2 2).length = 107 * 44100 * 2 * 2
    ∧ demoMarkers.map samplePos = [0, 463050, 3969000, 4652550] := by
  have hceil : (⌈(105.5 : ℚ)⌉ : Int) = 106 := by
    rw [Int.ceil_eq_iff]
    norm_num
  have hdur : durationSecondsZ demoMarkers = 107 := by
    have e : durationSecondsZ demoMarkers = ⌈(105.5 : ℚ)⌉ + 1 := rfl
    rw [e, hceil]
    rfl
  refine ⟨?_, rfl, ?_, hdur, ?_, ?_⟩
  · intro ms h
    cases ms with
    | nil => exact absurd rfl h
    | cons m rest => rfl
  · intro ms i hi
    have e4 : (u32le ms.length).length = 4 := rfl
    have := cueRecords_slice 44100 ms 1 i hi
    calc ((createCueChunk ms 44100).drop (4 + 24 * i)).take 24
        = ((u32le ms.length ++ cueRecords 44100 1 ms).drop
            ((u32le ms.length).length + 24 * i)).take 24 := by rw [e4]; rfl
      _ = ((cueRecords 44100 1 ms).drop (24 * i)).take 24 := by rw [List.drop_append]
      _ = cueRecord (1 + i) (samplePosAt 44100 (ms.getD i ⟨0, []⟩)) := this
      _ = cueRecord (i + 1) (⌊(ms.getD i ⟨0, []⟩).time * 44100⌋.toNat) := by
          rw [Nat.add_comm]; rfl
  · show (List.replicate ((numSamplesZ demoMarkers * 2 * 2).toNat) 0).length = _
    rw [List.length_replicate, numSamplesZ, hdur]
    rfl
  · show [samplePos ⟨0, "Intro".data⟩, samplePos ⟨10.5, "Verse 1".data⟩,
      samplePos ⟨90, "Chorus".data⟩, samplePos ⟨105.5, "Bridge".data⟩] = _
    have p1 : samplePos ⟨0, "Intro".data⟩ = 0 := by
      show (⌊(0 : ℚ) * 44100⌋).toNat = 0
      norm_num
    have p2 : samplePos ⟨10.5, "Verse 1".data⟩ = 463050 := by
      show (⌊(10.5 : ℚ) * 44100⌋).toNat = 463050
      have : (10.5 : ℚ) * 44100 = ((463050 : ℤ) : ℚ) := by norm_num
      rw [this, Int.floor_intCast]
      rfl
    have p3 : samplePos ⟨90, "Chorus".data⟩ = 3969000 := by
      show (⌊(90 : ℚ) * 44100⌋).toNat = 3969000
      have : (90 : ℚ) * 44100 = ((3969000 : ℤ) : ℚ) := by norm_num
      rw [this, Int.floor_intCast]
      rfl
    have p4 : samplePos ⟨105.5, "Bridge".data⟩ = 4652550 := by
      show (⌊(105.5 : ℚ) * 44100⌋).toNat = 4652550
      have : (105.5 : ℚ) * 44100 = ((4652550 : ℤ) : ℚ) := by norm_num
      rw [this, Int.floor_intCast]
      rfl
    rw [p1, p2, p3, p4]

theorem length_riffHeader (fs : Nat) : (riffHeader fs).length = 12 := rfl

theorem assembleWav_length (f b d c l : List Nat) :
    (assembleWav f b d c l).length =
      (4 + (8 + f.length) + (8 + b.length) + (8 + d.length) + (8 + c.length) + (8 + l.length)) +
        8 := by
  have h1 : (chunkHeader "fmt " f.length).length = 8 := by
    simp [chunkHeader, u32le, asciiBytes, utf8Bytes, utf8Char]
  have h2 : (chunkHeader "bext" b.length).length = 8 := by
    simp [chunkHeader, u32le, asciiBytes, utf8Bytes, utf8Char]
  have h3 : (chunkHeader "data" d.length).length = 8 := by
    simp [chunkHeader, u32le, asciiBytes, utf8Bytes, utf8Char]
  have h4 : (chunkHeader "cue " c.length).length = 8 := by
    simp [chunkHeader, u32le, asciiBytes, utf8Bytes, utf8Char]
  have h5 : (chunkHeader "LIST" l.length).length = 8 := by
    simp [chunkHeader, u32le, asciiBytes, utf8Bytes, utf8Char]
  simp only [assembleWav, List.length_append, length_riffHeader, h1, h2, h3, h4, h5]
  omega

theorem assembleWav_readU32LE (f b d c l : List Nat) :
    readU32LE (assembleWav f b d c l) 4 =
      (4 + (8 + f.length) + (8 + b.length) + (8 + d.length) + (8 + c.length) + (8 + l.length)) %
        4294967296 := by
  have := readU32LE_riffHeader
    (4 + (8 + f.length) + (8 + b.length) + (8 + d.length) + (8 + c.length) + (8 + l.length))
    (chunkHeader "fmt " f.length ++ f ++ chunkHeader "bext" b.length ++ b ++
      chunkHeader "data" d.length ++ d ++ chunkHeader "cue " c.length ++ c ++
      chunkHeader "LIST" l.length ++ l)
  rw [assembleWav]
  rw [show ∀ (r x1 x2 x3 x4 x5 x6 x7 x8 x9 x10 : List Nat),
      r ++ x1 ++ x2 ++ x3 ++ x4 ++ x5 ++ x6 ++ x7 ++ x8 ++ x9 ++ x10 =
        r ++ (x1 ++ x2 ++ x3 ++ x4 ++ x5 ++ x6 ++ x7 ++ x8 ++ x9 ++ x10) from
    fun r x1 x2 x3 x4 x5 x6 x7 x8 x9 x10 => by simp [List.append_assoc]]
  exact this

/-- C2 witness: the general cue-record and duration statements instantiated
at the scenario's marker list. -/
theorem cueSynch_c2_witness :
    ((createCueChunk demoMarkers 44100).drop (4 + 24 * 1)).take 24 =
      cueRecord (1 + 1) (⌊(demoMarkers.getD 1 ⟨0, []⟩).time * 44100⌋.toNat)
    ∧ durationSecondsZ demoMarkers = ⌈(demoMarkers.getLast (by decide)).time⌉ + 1 :=
  ⟨cueSynch_c2_duration_and_positions.2.2.1 demoMarkers 1 (by decide),
    cueSynch_c2_duration_and_positions.1 demoMarkers (by decide)⟩

/-- C8: for every marker list (and any clock-derived bext strings), the
32-bit size field stored at offset 4 of the desktop encoder's output equals
the total byte length of the file minus 8, whenever that value fits the
32-bit field (beyond 2^32 JS `writeUInt32LE` would throw). -/
theorem cueSynch_c8_riff_size :
    ∀ (ms : List Marker) (oR oD oT : List Char),
      (generateWavDesktop ms oR oD oT).length - 8 < 4294967296 →
        readU32LE (generateWavDesktop ms oR oD oT) 4 =
          (generateWavDesktop ms oR oD oT).length - 8 := by
  intro ms oR oD oT h
  rw [generateWavDesktop] at h ⊢
  rw [assembleWav_readU32LE]
  rw [assembleWav_length] at h ⊢
  omega

/-- Bound helper for the C8 witness. -/
theorem generateWavDesktop_nil_size :
    (generateWavDesktop [] [] [] []).length - 8 < 4294967296 := by
  rw [generateWavDesktop, assembleWav_length]
  have hf : (createFmtChunk 44100 2 16).length = 16 := rfl
  have hb : (createBextChunk "CueSynch - Generated marker file".data "CueSynch".data
      [] [] []).length = 602 := by
    simp only [createBextChunk, writeU32LE, writeU16LE, length_writeBytes,
      List.length_replicate]
  have hd : (createDataChunk (numSamplesZ []) 2 2).length = 1764000 := by
    rw [createDataChunk, List.length_replicate]
    rfl
  have hc : (createCueChunk [] 44100).length = 4 := rfl
  have hl : (createListChunkDesktop []).length = 4 := rfl
  rw [hf, hb, hd, hc, hl]
  norm_num

/-- C8 witness: the size-field identity at the empty marker list. -/
theorem cueSynch_c8_witness :
    readU32LE (generateWavDesktop [] [] [] []) 4 =
      (generateWavDesktop [] [] [] []).length - 8 := by
  exact cueSynch_c8_riff_size [] [] [] [] generateWavDesktop_nil_size

/-- Marker list with a tie at offset 5 used for the stability witness. -/
def stabilityCSV : List Char := "time,name\n5,B\n5,A\n3,C".data

theorem parseCSVWithSelectedFields_eq_ok (csv : List Char) (fr : ℚ) (tc : List Char)
    (fields : List (List Char)) :
    parseCSVWithSelectedFields csv fr tc fields =
      Except.ok (sortMarkers (extractMarkersRaw fr tc fields (csvRowsOf csv))) := by
  unfold parseCSVWithSelectedFields
  rw [parseCSVWithHeaders_eq_ok]

/-- C7: every marker list produced by `parseCSVWithSelectedFields` is
non-decreasing in time, and for each time value the markers carrying it
appear in exactly the order the raw row-by-row extraction produced them
(stability of the sort); the output is a function of the input, so
identical input yields identical order. -/
theorem cueSynch_c7_sorted_stable :
    ∀ (csv : List Char) (fr : ℚ) (tc : List Char) (fields : List (List Char))
      (ms : List Marker),
      parseCSVWithSelectedFields csv fr tc fields = Except.ok ms →
        ms.Pairwise (fun a b => a.time ≤ b.time)
        ∧ ∀ t : ℚ, ms.filter (fun m => decide (m.time = t)) =
            (extractMarkersRaw fr tc fields (csvRowsOf csv)).filter
              (fun m => decide (m.time = t)) := by
  intro csv fr tc fields ms h
  rw [parseCSVWithSelectedFields_eq_ok] at h
  injection h with h
  subst h
  exact ⟨sortMarkers_sorted _, fun t => filter_time_sortMarkers t _⟩

/-- C7 witness: the sortedness and stability facts at a concrete CSV with a
tie at offset 5 ("B" in row 2, "A" in row 3). -/
theorem cueSynch_c7_witness :
    (sortMarkers (extractMarkersRaw 30 "time".data ["name".data]
        (csvRowsOf stabilityCSV))).Pairwise (fun a b => a.time ≤ b.time)
    ∧ ∀ t : ℚ,
        (sortMarkers (extractMarkersRaw 30 "time".data ["name".data]
            (csvRowsOf stabilityCSV))).filter (fun m => decide (m.time = t)) =
          (extractMarkersRaw 30 "time".data ["name".data]
            (csvRowsOf stabilityCSV)).filter (fun m => decide (m.time = t)) :=
  cueSynch_c7_sorted_stable stabilityCSV 30 "time".data ["name".data] _
    (parseCSVWithSelectedFields_eq_ok stabilityCSV 30 "time".data ["name".data])

/-- CSV whose rows all fail extraction: "abc" is unparsable as a time and
the second row's time cell is empty. -/
def noMarkerCSV : List Char := "time,name\nabc,X\n,Y".data

/-- C6 counterexample: the claim states the conversion fails loudly when
extraction yields no valid markers, but the DESKTOP `generate-wav` handler
has no such check: on a CSV whose extraction yields `[]` it succeeds and
encodes a marker-less 10-second WAV. -/
theorem cueSynch_c6_counterexample :
    parseCSVWithSelectedFields noMarkerCSV 30 "time".data ["name".data] = Except.ok []
    ∧ desktopGenerateWav noMarkerCSV 30 "time".data ["name".data] [] [] [] =
        Except.ok (generateWavDesktop [] [] [] []) := by
  constructor
  · rfl
  · rfl

/-- C6 amended: when extraction yields no valid markers, the WEB conversion
endpoint fails loudly with the descriptive error `'No valid markers found
in CSV'` instead of producing a WAV, while the desktop handler (which lacks
the check) proceeds and encodes a marker-less 10-second WAV. -/
theorem cueSynch_c6_no_markers :
    ∀ (csv : List Char) (fr : ℚ) (tc : List Char) (fields : List (List Char))
      (oR oD oT : List Char),
      parseCSVWithSelectedFields csv fr tc fields = Except.ok [] →
        webGenerateWav csv fr tc fields oR oD oT =
            Except.error "No valid markers found in CSV".data
        ∧ desktopGenerateWav csv fr tc fields oR oD oT =
            Except.ok (generateWavDesktop [] oR oD oT) := by
  intro csv fr tc fields oR oD oT h
  constructor
  · rw [webGenerateWav, h]
    rfl
  · rw [desktopGenerateWav, h]

/-- C6 witness: both behaviours at a concrete no-valid-marker CSV. -/
theorem cueSynch_c6_witness :
    webGenerateWav noMarkerCSV 30 "time".data ["name".data] [] [] [] =
        Except.error "No valid markers found in CSV".data
    ∧ desktopGenerateWav noMarkerCSV 30 "time".data ["name".data] [] [] [] =
        Except.ok (generateWavDesktop [] [] [] []) :=
  cueSynch_c6_no_markers noMarkerCSV 30 "time".data ["name".data] [] [] [] rfl

/-- C9: for every input splitting into exactly four colon-separated parts
whose components `parseInt` to `h`, `m`, `s`, `f`, and every positive frame
rate, `parseTime` returns `h*3600 + m*60 + s + f/frameRate` seconds. -/
theorem cueSynch_c9_four_part :
    ∀ (input : List Char) (fr : ℚ) (a b c d : List Char) (h m s f : Int),
      splitOnChar ':' (jsTrim input) = [a, b, c, d] →
      jsParseInt a = some h → jsParseInt b = some m →
      jsParseInt c = some s → jsParseInt d = some f → 0 < fr →
        parseTime input fr =
          some ((h : ℚ) * 3600 + (m : ℚ) * 60 + (s : ℚ) + (f : ℚ) / fr) := by
  intro input fr a b c d h m s f hsplit ha hb hc hd hfr
  have hcon : (jsTrim input).contains ':' = true := contains_of_splitOnChar_two hsplit
  unfold parseTime
  rw [if_neg (by rw [hcon]; simp)]
  simp only [hsplit, ha, hb, hc, hd]

/-- C9 witness: `parseTime` on "01:02:03:15" at 30 fps. -/
theorem cueSynch_c9_witness :
    parseTime "01:02:03:15".data 30 =
      some (((1 : Int) : ℚ) * 3600 + ((2 : Int) : ℚ) * 60 + ((3 : Int) : ℚ) +
        ((15 : Int) : ℚ) / 30) :=
  cueSynch_c9_four_part "01:02:03:15".data 30 "01".data "02".data "03".data "15".data
    1 2 3 15 (by decide) (by decide) (by decide) (by decide) (by decide) (by norm_num)

/-- Modelled from the spec: the claim's "numeric decimal" — a string that is
in its ENTIRETY a plain decimal number (optional sign, digits, optionally a
decimal point and further digits, or a point followed by digits), as in the
spec's "parse it as a decimal number of seconds".  This is the claim-side
grammar against which the code's prefix-parsing `parseFloat` is compared. -/
def specNumericDecimal (s : List Char) : Bool :=
  let s1 := match s with
    | '-' :: r => r
    | '+' :: r => r
    | r => r
  let ip := s1.takeWhile Char.isDigit
  match s1.dropWhile Char.isDigit with
  | [] => !ip.isEmpty
  | '.' :: r2 => (!ip.isEmpty || !r2.isEmpty) && r2.all Char.isDigit
  | _ => false

/-- C4 counterexample: the claim says `parseTime` fails exactly on inputs
outside the supported grammar, in particular that a colon-free input that
is not a numeric decimal fails.  "10abc" is colon-free and is not a numeric
decimal, yet `parseTime` SUCCEEDS on it with 10 seconds, because JS
`parseFloat` reads the longest numeric prefix and ignores the tail. -/
theorem cueSynch_c4_counterexample :
    specNumericDecimal "10abc".data = false
    ∧ ("10abc".data.contains ':') = false
    ∧ parseTime "10abc".data 30 = some 10 := by
  refine ⟨by decide, by decide, ?_⟩
  have e : parseTime "10abc".data 30 =
      some ((1 : ℚ) * ((10 : Nat) : ℚ) * (10 : ℚ) ^ (0 : Int)) := rfl
  rw [e]
  norm_num

/-- C4 amended: `parseTime` returns `none` (it never throws) according to
JS prefix-parsing, not full-string grammar membership: a colon-free input
fails exactly when `parseFloat` finds no numeric prefix in it, and a
four-part input fails exactly when some of its colon-separated components
has no integer prefix under `parseInt` (a component such as "4x" counts as
integer 4, and an input such as "10abc" counts as 10 seconds). -/
theorem cueSynch_c4_failure_conditions :
    ∀ (input : List Char) (fr : ℚ),
      ((jsTrim input).contains ':' = false →
        (parseTime input fr = none ↔ jsParseFloat (jsTrim input) = none))
      ∧ ∀ (a b c d : List Char), splitOnChar ':' (jsTrim input) = [a, b, c, d] →
          (parseTime input fr = none ↔
            (jsParseInt a = none ∨ jsParseInt b = none ∨
              jsParseInt c = none ∨ jsParseInt d = none)) := by
  intro input fr
  constructor
  · intro hnc
    unfold parseTime
    rw [if_pos hnc]
  · intro a b c d hsplit
    have hcon : (jsTrim input).contains ':' = true := contains_of_splitOnChar_two hsplit
    unfold parseTime
    rw [if_neg (by rw [hcon]; simp)]
    cases hpa : jsParseInt a <;> cases hpb : jsParseInt b <;>
      cases hpc : jsParseInt c <;> cases hpd : jsParseInt d <;>
        simp [hsplit, hpa, hpb, hpc, hpd]

/-- C4 witness: the two failure conditions instantiated at "abc" (colon-free,
no numeric prefix, fails) and "1:2:3:x" (fourth component with no integer
prefix, fails). -/
theorem cueSynch_c4_witness :
    (parseTime "abc".data 30 = none ↔ jsParseFloat (jsTrim "abc".data) = none)
    ∧ (parseTime "1:2:3:x".data 30 = none ↔
        (jsParseInt "1".data = none ∨ jsParseInt "2".data = none ∨
          jsParseInt "3".data = none ∨ jsParseInt "x".data = none)) :=
  ⟨(cueSynch_c4_failure_conditions "abc".data 30).1 (by decide),
    (cueSynch_c4_failure_conditions "1:2:3:x".data 30).2 "1".data "2".data "3".data "x".data
      (by decide)⟩

/-- C5 counterexample: the claim states double-quote characters are not
removed from parsed field values, but `parseCSVLine` only toggles the
in-quotes flag on `"` and never appends it: parsing `"a,b"` yields the
single field `a,b` with the quotes gone (while the quoted comma is kept). -/
theorem cueSynch_c5_counterexample :
    '"' ∈ "\"a,b\"".data
    ∧ parseCSVLine "\"a,b\"".data = ["a,b".data] := by
  constructor
  · decide
  · decide

/-- C5 amended: a double-quote character flips the inside-quotes flag and is
REMOVED from the output: no field value produced by `parseCSVLine` ever
contains a double-quote character (and no `""`-escaping is supported). -/
theorem cueSynch_c5_quotes_removed :
    ∀ (line : List Char), ∀ f ∈ parseCSVLine line, '"' ∉ f := by
  intro line
  exact quote_not_mem_parseCSVLineGo line [] false (by simp)

/-- C5 witness: the quote-free guarantee at the field parsed from `"a"`. -/
theorem cueSynch_c5_witness : '"' ∉ "a".data :=
  cueSynch_c5_quotes_removed "\"a\"".data "a".data (by decide)

/-- C10: `detectFrameRate` is total and always returns one of 24, 25, 30,
50, 60: it returns 30 when no four-part frame number was collected from the
scanned lines, and otherwise the bucket (`<24→24`, `<25→25`, `<30→30`,
`<50→50`, else `60`) of the maximum collected frame number. -/
theorem cueSynch_c10_detect :
    ∀ csv : List Char,
      (detectFrameRate csv = 24 ∨ detectFrameRate csv = 25 ∨ detectFrameRate csv = 30 ∨
        detectFrameRate csv = 50 ∨ detectFrameRate csv = 60)
      ∧ (collectedFrames csv = [] → detectFrameRate csv = 30)
      ∧ ∀ (f : Int) (fs : List Int), collectedFrames csv = f :: fs →
          detectFrameRate csv = frameRateBucket (fs.foldl max f) := by
  intro csv
  refine ⟨?_, ?_, ?_⟩
  · cases hc : collectedFrames csv with
    | nil =>
      have e : detectFrameRate csv = 30 := by
        unfold detectFrameRate
        rw [hc]
      simp [e]
    | cons f fs =>
      have e : detectFrameRate csv = frameRateBucket (fs.foldl max f) := by
        unfold detectFrameRate
        rw [hc]
      rw [e]
      unfold frameRateBucket
      split_ifs <;> simp
  · intro h
    unfold detectFrameRate
    rw [h]
  · intro f fs h
    unfold detectFrameRate
    rw [h]

/-- C10 witness: bucketing at a CSV whose single four-part timecode has
frame number 10 (bucket 24), applied through the general theorem. -/
theorem cueSynch_c10_witness :
    detectFrameRate "x\n0:0:0:10".data =
      frameRateBucket (List.foldl max 10 []) :=
  (cueSynch_c10_detect "x\n0:0:0:10".data).2.2 10 [] (by decide)
